import Mathlib

/-!
Shallow embedding of the QuantumTradebot trading engine
(`backend/trading_engine.py`, `backend/hedge_fund_automation.py`,
`backend/config.py`).

Numeric values (prices, quantities, capital, P&L) are modelled as `ℚ`;
timestamps as `ℚ` counting hours since an arbitrary epoch, so that the
24-hour holding limit of `_manage_position` reads `now - timestamp > 24`.
Python dictionaries keyed by symbol are modelled as association lists
`List (String × _)` with first-occurrence lookup/insert/erase, matching
dict semantics on duplicate-free key lists.
-/

namespace QuantumTradebot

/-- Order side, `'BUY'` / `'SELL'` in the source. -/
inductive Side
  | BUY
  | SELL
deriving DecidableEq, Repr

/-- Position status, `'OPEN'` / `'CLOSED'` in the source. -/
inductive PosStatus
  | OPEN
  | CLOSED
deriving DecidableEq, Repr

/-- The position record built in `TradingEngine._execute_trade` and mutated by
`_manage_position` / `_close_position`.  The fields `id`, `order_id`,
`prediction` are opaque to all claims and omitted; the close-time fields
(`exit_price`, `realized_pnl`, `close_reason`, `close_timestamp`), which the
Python code adds to the dict on close, are present from the start with
neutral defaults. -/
structure Position where
  symbol : String
  side : Side
  quantity : ℚ
  entry_price : ℚ
  current_price : ℚ
  stop_loss : ℚ
  take_profit : ℚ
  timestamp : ℚ
  unrealized_pnl : ℚ
  status : PosStatus
  exit_price : ℚ
  realized_pnl : ℚ
  close_reason : String
  close_timestamp : ℚ
deriving DecidableEq, Repr

/-- The `self.stats` dictionary of `TradingEngine` (the fields the claims
touch). -/
structure Stats where
  total_trades : Nat
  winning_trades : Nat
  losing_trades : Nat
  win_rate : ℚ
  avg_profit : ℚ
  avg_loss : ℚ
deriving DecidableEq, Repr

/-- Mutable state of `TradingEngine`.  `risk_max_drawdown` is
`self.risk_metrics['max_drawdown']`; `has_ai_model` models the truthiness of
`self.ai_model`; `market_data` maps a symbol to its latest price
(`self.market_data[symbol]['price']`). -/
structure TradingEngine where
  is_running : Bool
  is_live_trading : Bool
  has_ai_model : Bool
  current_capital : ℚ
  max_drawdown_reached : ℚ
  daily_pnl : ℚ
  total_pnl : ℚ
  risk_max_drawdown : ℚ
  stats : Stats
  positions : List (String × Position)
  trade_history : List Position
  market_data : List (String × ℚ)
deriving DecidableEq, Repr

/-- State of `HedgeFundAutomation` relevant to `toggle_trading_mode`. -/
structure HedgeFundAutomation where
  automation_running : Bool
  trading_mode : String
deriving DecidableEq, Repr

/-! ### Configuration constants (`backend/config.py`) -/

def DEFAULT_CAPITAL : ℚ := 100000

def MAX_POSITION_SIZE : ℚ := 5 / 100

def STOP_LOSS_PERCENTAGE : ℚ := 2 / 100

def TAKE_PROFIT_PERCENTAGE : ℚ := 4 / 100

def MAX_DRAWDOWN_THRESHOLD : ℚ := 15 / 100

def PREDICTION_CONFIDENCE_THRESHOLD : ℚ := 7 / 10

def MAX_CONCURRENT_POSITIONS : Nat := 10

/-- `RISK_CONFIG['position_sizing']['max_risk_per_trade']`. -/
def MAX_RISK_PER_TRADE : ℚ := 2 / 100

/-- `RISK_CONFIG['position_sizing']['confidence_multiplier']`. -/
def CONFIDENCE_MULTIPLIER : ℚ := 1 / 10

/-! ### Association-list dictionaries -/

/-- First-occurrence lookup, the embedding of `d[k]` / `k in d`. -/
def mapLookup {α : Type} (m : List (String × α)) (k : String) : Option α :=
  match m with
  | [] => none
  | (k2, v) :: rest => if k2 = k then some v else mapLookup rest k

/-- `d[k] = v`: replace the first binding of `k`, or append a new one. -/
def mapInsert {α : Type} (m : List (String × α)) (k : String) (v : α) :
    List (String × α) :=
  match m with
  | [] => [(k, v)]
  | (k2, v2) :: rest =>
    if k2 = k then (k, v) :: rest else (k2, v2) :: mapInsert rest k v

/-- `del d[k]`: drop the first binding of `k`. -/
def mapErase {α : Type} (m : List (String × α)) (k : String) :
    List (String × α) :=
  match m with
  | [] => []
  | (k2, v2) :: rest =>
    if k2 = k then rest else (k2, v2) :: mapErase rest k

/-! ### Engine operations -/

/-- `TradingEngine.add_capital` (trading_engine.py:185-207): a zero amount is
a no-op; otherwise the amount is added and the result clamped at zero by
`max(self.current_capital, 0)`. -/
def add_capital (e : TradingEngine) (amount : ℚ) : TradingEngine :=
  if amount = 0 then e
  else { e with current_capital := max (e.current_capital + amount) 0 }

/-- `TradingEngine.switch_to_live` (trading_engine.py:163-183): rejected only
when already live; the running flag is not consulted.  Returns
(success, new state). -/
def switch_to_live (e : TradingEngine) : Bool × TradingEngine :=
  if e.is_live_trading then (false, e)
  else (true, { e with is_live_trading := true })

/-- `HedgeFundAutomation.toggle_trading_mode` (hedge_fund_automation.py:497-516).
`init_ok` models the success of the `initialize()` re-connection call.
Returns (success, new state). -/
def toggle_trading_mode (a : HedgeFundAutomation) (mode : String)
    (init_ok : Bool) : Bool × HedgeFundAutomation :=
  if mode = "testnet" ∨ mode = "live" then
    if a.automation_running then (false, a)
    else (init_ok, { a with trading_mode := mode })
  else (false, a)

/-- `TradingEngine._calculate_stop_loss` (trading_engine.py:724-731). -/
def calculate_stop_loss (price : ℚ) (side : Side) : ℚ :=
  match side with
  | Side.BUY => price * (1 - STOP_LOSS_PERCENTAGE)
  | Side.SELL => price * (1 + STOP_LOSS_PERCENTAGE)

/-- `TradingEngine._calculate_take_profit` (trading_engine.py:733-740). -/
def calculate_take_profit (price : ℚ) (side : Side) : ℚ :=
  match side with
  | Side.BUY => price * (1 + TAKE_PROFIT_PERCENTAGE)
  | Side.SELL => price * (1 - TAKE_PROFIT_PERCENTAGE)

/-- The `prediction` dictionary consumed by
`TradingEngine._process_trading_signal`. -/
structure Prediction where
  confidence : ℚ
  ensemble_prediction : ℚ
  risk_score : ℚ
deriving DecidableEq, Repr

/-- `TradingEngine._calculate_position_size` (trading_engine.py:506-540).
`get_pair_config` returns a dict, so the `hasattr(pair_config,
'min_quantity')` test is always false and the minimum-quantity clamp never
applies. -/
def calculate_position_size (e : TradingEngine) (confidence risk_score price : ℚ) : ℚ :=
  let base_position_pct := MAX_RISK_PER_TRADE
  let adjusted_position_pct :=
    base_position_pct * (1 + (confidence - 1 / 2) * CONFIDENCE_MULTIPLIER)
  let adjusted_position_pct := adjusted_position_pct * (1 - risk_score * (1 / 2))
  let max_position_value := e.current_capital * MAX_POSITION_SIZE
  let confidence_position_value := e.current_capital * adjusted_position_pct
  let position_value := min max_position_value confidence_position_value
  position_value / price

/-- `TradingEngine._execute_trade` (trading_engine.py:542-607).  `fill` is the
price of the first reported fill of the live order, when the response carries
one (`order.get('fills', [{}])[0].get('price', price)` falls back to the
quoted `price` otherwise); test orders never report fills and use the quoted
price directly.  The position is recorded immediately after
`place_market_order` returns; there is no separate fill-confirmation step. -/
def execute_trade (e : TradingEngine) (symbol : String) (side : Side)
    (quantity price : ℚ) (fill : Option ℚ) (now : ℚ) : TradingEngine :=
  let actual_price := if e.is_live_trading then fill.getD price else price
  let position : Position :=
    { symbol := symbol
      side := side
      quantity := quantity
      entry_price := actual_price
      current_price := actual_price
      stop_loss := calculate_stop_loss actual_price side
      take_profit := calculate_take_profit actual_price side
      timestamp := now
      unrealized_pnl := 0
      status := PosStatus.OPEN
      exit_price := 0
      realized_pnl := 0
      close_reason := ""
      close_timestamp := 0 }
  { e with
    positions := mapInsert e.positions symbol position
    stats := { e.stats with total_trades := e.stats.total_trades + 1 } }

/-- `TradingEngine._process_trading_signal` (trading_engine.py:463-504).
When the symbol already has a position the source calls
`_consider_position_adjustment`, a method that is not defined anywhere in the
class; the resulting `AttributeError` is swallowed by the surrounding
`except`, so the state is unchanged and no entry trade runs. -/
def process_trading_signal (e : TradingEngine) (symbol : String)
    (pred : Prediction) (fill : Option ℚ) (now : ℚ) : TradingEngine :=
  match mapLookup e.market_data symbol with
  | none => e
  | some current_price =>
    if pred.confidence < PREDICTION_CONFIDENCE_THRESHOLD then e
    else
      let sideOpt : Option Side :=
        if pred.ensemble_prediction > 1 / 100 then some Side.BUY
        else if pred.ensemble_prediction < -(1 / 100) then some Side.SELL
        else none
      match sideOpt with
      | none => e
      | some side =>
        if (mapLookup e.positions symbol).isSome then e
        else
          let position_size :=
            calculate_position_size e pred.confidence pred.risk_score current_price
          if position_size ≤ 0 then e
          else execute_trade e symbol side position_size current_price fill now

/-- The side-signed P&L formula shared by `_manage_position`
(trading_engine.py:622-628) and `_close_position` (trading_engine.py:672-676):
`(current - entry) * quantity` for a BUY, the negation for a SELL. -/
def position_pnl (pos : Position) (current_price : ℚ) : ℚ :=
  match pos.side with
  | Side.BUY => (current_price - pos.entry_price) * pos.quantity
  | Side.SELL => (pos.entry_price - current_price) * pos.quantity

/-- The statistics update of `TradingEngine._close_position`
(trading_engine.py:685-701): a strictly positive P&L counts as a win and is
folded into the running `avg_profit`; anything else — losses AND break-even
trades — increments `losing_trades` and folds `|pnl|` into `avg_loss`.  The
win rate is then recomputed from the updated counters. -/
def update_stats_on_close (s : Stats) (pnl : ℚ) : Stats :=
  let s2 :=
    if 0 < pnl then
      { s with
        winning_trades := s.winning_trades + 1
        avg_profit :=
          (s.avg_profit * ((s.winning_trades + 1 : ℚ) - 1) + pnl) /
            (s.winning_trades + 1 : ℚ) }
    else
      { s with
        losing_trades := s.losing_trades + 1
        avg_loss :=
          (s.avg_loss * ((s.losing_trades + 1 : ℚ) - 1) + |pnl|) /
            (s.losing_trades + 1 : ℚ) }
  let total_closed := s2.winning_trades + s2.losing_trades
  { s2 with
    win_rate :=
      if 0 < total_closed then
        (s2.winning_trades : ℚ) / (total_closed : ℚ) * 100
      else 0 }

/-- `TradingEngine._close_position` (trading_engine.py:667-722).  If the
symbol has no market data the very first line raises `KeyError`, the
surrounding `except` swallows it and nothing is mutated.  Note that
`self.current_capital` is not touched anywhere in this method: realized P&L
flows into `total_pnl` / `daily_pnl` only. -/
def close_position (e : TradingEngine) (symbol : String) (pos : Position)
    (reason : String) (now : ℚ) : TradingEngine :=
  match mapLookup e.market_data symbol with
  | none => e
  | some current_price =>
    let pnl : ℚ := position_pnl pos current_price
    let closed : Position :=
      { pos with
        exit_price := current_price
        realized_pnl := pnl
        status := PosStatus.CLOSED
        close_reason := reason
        close_timestamp := now }
    { e with
      stats := update_stats_on_close e.stats pnl
      total_pnl := e.total_pnl + pnl
      daily_pnl := e.daily_pnl + pnl
      positions := mapErase e.positions symbol
      trade_history := e.trade_history ++ [closed] }

/-- `TradingEngine._update_trailing_stop` (trading_engine.py:742-763). -/
def update_trailing_stop (pos : Position) : Position :=
  match pos.side with
  | Side.BUY =>
    if pos.entry_price < pos.current_price then
      let new_stop_loss := pos.current_price * (1 - STOP_LOSS_PERCENTAGE)
      if pos.stop_loss < new_stop_loss then { pos with stop_loss := new_stop_loss }
      else pos
    else pos
  | Side.SELL =>
    if pos.current_price < pos.entry_price then
      let new_stop_loss := pos.current_price * (1 + STOP_LOSS_PERCENTAGE)
      if new_stop_loss < pos.stop_loss then { pos with stop_loss := new_stop_loss }
      else pos
    else pos

/-- The exit-condition cascade of `TradingEngine._manage_position`
(trading_engine.py:632-656): stop loss, then take profit, then the 24-hour
time limit, then the 10% excursion circuit breaker, in that `if/elif`
order. -/
def exitCheck (pos : Position) (current_price now : ℚ) : Option String :=
  let pnl_pct : ℚ :=
    match pos.side with
    | Side.BUY => (current_price - pos.entry_price) / pos.entry_price
    | Side.SELL => (pos.entry_price - current_price) / pos.entry_price
  if (pos.side = Side.BUY ∧ current_price ≤ pos.stop_loss) ∨
      (pos.side = Side.SELL ∧ pos.stop_loss ≤ current_price) then
    some "Stop Loss"
  else if (pos.side = Side.BUY ∧ pos.take_profit ≤ current_price) ∨
      (pos.side = Side.SELL ∧ current_price ≤ pos.take_profit) then
    some "Take Profit"
  else if 24 < now - pos.timestamp then some "Time Limit"
  else if 1 / 10 < |pnl_pct| then some "Risk Management"
  else none

/-- `TradingEngine._manage_position` (trading_engine.py:609-665).  The
position dict is mutated in place (current price, unrealized P&L) before the
exit checks, which the embedding mirrors by re-inserting the updated record
before closing or trailing. -/
def manage_position (e : TradingEngine) (symbol : String) (pos : Position)
    (now : ℚ) : TradingEngine :=
  match mapLookup e.market_data symbol with
  | none => e
  | some current_price =>
    let pnl : ℚ := position_pnl pos current_price
    let pos2 := { pos with current_price := current_price, unrealized_pnl := pnl }
    match exitCheck pos2 current_price now with
    | some reason =>
      close_position { e with positions := mapInsert e.positions symbol pos2 }
        symbol pos2 reason now
    | none =>
      { e with positions := mapInsert e.positions symbol (update_trailing_stop pos2) }

/-- `TradingEngine._should_trade` (trading_engine.py:765-783). -/
def should_trade (e : TradingEngine) : Bool :=
  if MAX_CONCURRENT_POSITIONS ≤ e.positions.length then false
  else if e.current_capital ≤ 1000 then false
  else if MAX_DRAWDOWN_THRESHOLD ≤ e.max_drawdown_reached then false
  else if ¬ e.has_ai_model then false
  else true

/-- One iteration of the `_close_all_positions` loop: look the symbol up in
the current positions dict and close it. -/
def close_step (reason : String) (now : ℚ) (acc : TradingEngine)
    (symbol : String) : TradingEngine :=
  match mapLookup acc.positions symbol with
  | some pos => close_position acc symbol pos reason now
  | none => acc

/-- `TradingEngine._close_all_positions` (trading_engine.py:903-911): the key
list is snapshotted (`list(self.positions.keys())`) and each position closed
with the given reason. -/
def close_all_positions (e : TradingEngine) (reason : String) (now : ℚ) :
    TradingEngine :=
  (e.positions.map Prod.fst).foldl (close_step reason now) e

/-- `TradingEngine._emergency_stop` (trading_engine.py:886-901). -/
def emergency_stop (e : TradingEngine) (reason : String) (now : ℚ) :
    TradingEngine :=
  let e2 := close_all_positions e reason now
  { e2 with is_running := false }

/-- The drawdown branch of `TradingEngine._enforce_risk_limits`
(trading_engine.py:864-884).  The VaR branch calls
`_reduce_position_sizes` and the correlation branch `_check_correlation_limits`,
neither of which is defined anywhere in the class: the `AttributeError` is
swallowed by the surrounding `except` and the state is unchanged. -/
def enforce_risk_limits (e : TradingEngine) (now : ℚ) : TradingEngine :=
  if MAX_DRAWDOWN_THRESHOLD < e.risk_max_drawdown then
    emergency_stop e "Maximum drawdown exceeded" now
  else e

/-! ### Open/close cycle sequences (for the capital-conservation claim) -/

/-- One scripted operation against the engine: open a position via
`_execute_trade`, or close the position currently held for a symbol via
`_close_position` (a close of an absent symbol is a no-op, as the position
loop only calls `_close_position` on held symbols). -/
inductive EngineOp
  | openPos (symbol : String) (side : Side) (quantity price : ℚ)
      (fill : Option ℚ) (now : ℚ)
  | closePos (symbol : String) (reason : String) (now : ℚ)
deriving Repr

/-- Run a single scripted operation. -/
def runOp (e : TradingEngine) (op : EngineOp) : TradingEngine :=
  match op with
  | EngineOp.openPos symbol side quantity price fill now =>
    execute_trade e symbol side quantity price fill now
  | EngineOp.closePos symbol reason now =>
    match mapLookup e.positions symbol with
    | some pos => close_position e symbol pos reason now
    | none => e

/-- Run a scripted sequence of open/close operations. -/
def runOps (e : TradingEngine) (ops : List EngineOp) : TradingEngine :=
  ops.foldl runOp e

/-- Sum of the realized P&L recorded in the trade history (every entry of
`trade_history` is a closed position). -/
def historyPnl (e : TradingEngine) : ℚ :=
  (e.trade_history.map Position.realized_pnl).sum

/-! ### Concrete states used by counterexamples and witnesses -/

/-- A freshly opened LONG position: entry 100, quantity 1, 2% stop at 98,
4% take profit at 104. -/
def examplePos : Position :=
  { symbol := "BTCUSDT", side := Side.BUY, quantity := 1, entry_price := 100,
    current_price := 100, stop_loss := 98, take_profit := 104, timestamp := 0,
    unrealized_pnl := 0, status := PosStatus.OPEN, exit_price := 0,
    realized_pnl := 0, close_reason := "", close_timestamp := 0 }

/-- Statistics after one executed (still open) trade. -/
def exampleStats : Stats :=
  { total_trades := 1, winning_trades := 0, losing_trades := 0, win_rate := 0,
    avg_profit := 0, avg_loss := 0 }

/-- A running paper-trading engine holding `examplePos`, with the market for
BTCUSDT at 110. -/
def exampleEngine : TradingEngine :=
  { is_running := true, is_live_trading := false, has_ai_model := true,
    current_capital := 100000, max_drawdown_reached := 0, daily_pnl := 0,
    total_pnl := 0, risk_max_drawdown := 0, stats := exampleStats,
    positions := [("BTCUSDT", examplePos)], trade_history := [],
    market_data := [("BTCUSDT", 110)] }

/-! ### Association-list lemmas -/

theorem mapLookup_mapInsert_self {α : Type} (m : List (String × α)) (k : String)
    (v : α) : mapLookup (mapInsert m k v) k = some v := by
  induction m with
  | nil => simp [mapInsert, mapLookup]
  | cons kv rest ih =>
    by_cases h : kv.1 = k
    · simp [mapInsert, h, mapLookup]
    · simp [mapInsert, h, mapLookup, ih]

theorem mem_keys_mapInsert {α : Type} (m : List (String × α)) (k a : String)
    (v : α) :
    a ∈ (mapInsert m k v).map Prod.fst ↔ a = k ∨ a ∈ m.map Prod.fst := by
  induction m with
  | nil => simp [mapInsert, eq_comm]
  | cons kv rest ih =>
    by_cases h : kv.1 = k
    · subst h
      simp [mapInsert, eq_comm]
    · simp only [mapInsert, if_neg h, List.map_cons, List.mem_cons, ih]
      tauto

theorem keys_nodup_mapInsert {α : Type} (m : List (String × α)) (k : String)
    (v : α) (hnd : (m.map Prod.fst).Nodup) :
    ((mapInsert m k v).map Prod.fst).Nodup := by
  induction m with
  | nil => simp [mapInsert]
  | cons kv rest ih =>
    simp only [List.map_cons, List.nodup_cons] at hnd
    by_cases h : kv.1 = k
    · subst h
      simpa [mapInsert, List.nodup_cons] using hnd
    · simp only [mapInsert, if_neg h, List.map_cons]
      refine List.nodup_cons.mpr ⟨?_, ih hnd.2⟩
      rw [mem_keys_mapInsert]
      push_neg
      exact ⟨h, hnd.1⟩

theorem keys_mapErase_sublist {α : Type} (m : List (String × α)) (k : String) :
    ((mapErase m k).map Prod.fst).Sublist (m.map Prod.fst) := by
  induction m with
  | nil => simp [mapErase]
  | cons kv rest ih =>
    by_cases h : kv.1 = k
    · simp only [mapErase, if_pos h, List.map_cons]
      exact (List.Sublist.refl _).cons _
    · simp only [mapErase, if_neg h, List.map_cons]
      exact ih.cons₂ _

theorem keys_nodup_mapErase {α : Type} (m : List (String × α)) (k : String)
    (hnd : (m.map Prod.fst).Nodup) :
    ((mapErase m k).map Prod.fst).Nodup :=
  hnd.sublist (keys_mapErase_sublist m k)

theorem mapLookup_eq_none_of_not_mem {α : Type} (m : List (String × α))
    (k : String) (h : k ∉ m.map Prod.fst) : mapLookup m k = none := by
  induction m with
  | nil => rfl
  | cons kv rest ih =>
    simp only [List.map_cons, List.mem_cons] at h
    push_neg at h
    have h1 : kv.1 ≠ k := fun hh => h.1 hh.symm
    simp [mapLookup, h1, ih h.2]

theorem mapLookup_mapErase_self {α : Type} (m : List (String × α)) (k : String)
    (hnd : (m.map Prod.fst).Nodup) : mapLookup (mapErase m k) k = none := by
  induction m with
  | nil => rfl
  | cons kv rest ih =>
    simp only [List.map_cons, List.nodup_cons] at hnd
    by_cases h : kv.1 = k
    · subst h
      simp only [mapErase, if_pos rfl]
      exact mapLookup_eq_none_of_not_mem rest kv.1 hnd.1
    · simp [mapErase, h, mapLookup, ih hnd.2]

/-! ### C8: add_capital -/

/-- C8 counterexample: with capital 100000, a withdrawal of 100150 would
drive the capital negative, yet `add_capital` does not reject it and does not
leave the capital unchanged — it clamps the result to 0. -/
theorem add_capital_reject_cx :
    (add_capital exampleEngine (-100150)).current_capital ≠
      exampleEngine.current_capital := by
  simp only [add_capital, exampleEngine]
  norm_num

/-- C8 (amended): `add_capital` adjusts `current_capital` by `amount` and
clamps the result at zero (`max(self.current_capital, 0)`) instead of
rejecting amounts that would drive the capital negative; a zero amount is a
no-op, and from any nonnegative starting capital the resulting capital is
nonnegative. -/
theorem add_capital_clamps (e : TradingEngine) (amount : ℚ) :
    (amount = 0 → add_capital e amount = e) ∧
    (amount ≠ 0 →
      (add_capital e amount).current_capital = max (e.current_capital + amount) 0) ∧
    (0 ≤ e.current_capital → 0 ≤ (add_capital e amount).current_capital) := by
  refine ⟨fun h => ?_, fun h => ?_, fun h => ?_⟩
  · simp [add_capital, h]
  · simp [add_capital, h]
  · by_cases h0 : amount = 0
    · simpa [add_capital, h0] using h
    · simp [add_capital, h0]

/-- C8 witness: concrete instance of `add_capital_clamps` at capital 100000
and amount −100150: the result is the clamp `max (100000 − 100150) 0`, which
is nonnegative. -/
theorem add_capital_clamps_witness :
    (add_capital exampleEngine (-100150)).current_capital =
      max (exampleEngine.current_capital + (-100150)) 0 ∧
    0 ≤ (add_capital exampleEngine (-100150)).current_capital :=
  ⟨(add_capital_clamps exampleEngine (-100150)).2.1 (by norm_num),
    (add_capital_clamps exampleEngine (-100150)).2.2 (by norm_num [exampleEngine])⟩

/-! ### C9: trading-mode switch -/

/-- C9 counterexample: `exampleEngine` is running (`is_running = true`), yet
`switch_to_live` succeeds and flips `is_live_trading` to `true` — the engine
does not reject venue changes while running. -/
theorem switch_mode_while_running_cx :
    exampleEngine.is_running = true ∧
    (switch_to_live exampleEngine).1 = true ∧
    (switch_to_live exampleEngine).2.is_live_trading = true := by
  decide

/-- C9 (amended): the automation layer's `toggle_trading_mode` does reject
mode changes while `automation_running`, leaving `trading_mode` unchanged;
but the engine's `switch_to_live` only rejects when already live — it never
consults `is_running`, so a running testnet engine is switched to live. -/
theorem toggle_mode_gating (a : HedgeFundAutomation) (mode : String) (ok : Bool)
    (e : TradingEngine) :
    (a.automation_running = true → toggle_trading_mode a mode ok = (false, a)) ∧
    (e.is_live_trading = true → switch_to_live e = (false, e)) ∧
    (e.is_live_trading = false →
      switch_to_live e = (true, { e with is_live_trading := true })) := by
  refine ⟨fun h => ?_, fun h => ?_, fun h => ?_⟩
  · by_cases hm : mode = "testnet" ∨ mode = "live"
    · simp [toggle_trading_mode, hm, h]
    · simp [toggle_trading_mode, hm]
  · simp [switch_to_live, h]
  · simp [switch_to_live, h]

/-- C9 witness: a running automation rejects a switch to live, while the
running testnet `exampleEngine` is switched to live by `switch_to_live`. -/
theorem toggle_mode_gating_witness :
    toggle_trading_mode
        { automation_running := true, trading_mode := "testnet" } "live" true =
      (false, { automation_running := true, trading_mode := "testnet" }) ∧
    switch_to_live exampleEngine =
      (true, { exampleEngine with is_live_trading := true }) :=
  ⟨(toggle_mode_gating { automation_running := true, trading_mode := "testnet" }
      "live" true exampleEngine).1 rfl,
    (toggle_mode_gating { automation_running := true, trading_mode := "testnet" }
      "live" true exampleEngine).2.2 rfl⟩

/-! ### Characterization of close_position -/

/-- The record `_close_position` appends to `trade_history`. -/
def closedRecord (pos : Position) (price : ℚ) (reason : String) (now : ℚ) :
    Position :=
  { pos with
    exit_price := price
    realized_pnl := position_pnl pos price
    status := PosStatus.CLOSED
    close_reason := reason
    close_timestamp := now }

theorem close_position_of_price (e : TradingEngine) (symbol : String)
    (pos : Position) (reason : String) (now price : ℚ)
    (h : mapLookup e.market_data symbol = some price) :
    close_position e symbol pos reason now =
      { e with
        stats := update_stats_on_close e.stats (position_pnl pos price)
        total_pnl := e.total_pnl + position_pnl pos price
        daily_pnl := e.daily_pnl + position_pnl pos price
        positions := mapErase e.positions symbol
        trade_history := e.trade_history ++ [closedRecord pos price reason now] } := by
  simp [close_position, h, closedRecord]

theorem close_position_of_none (e : TradingEngine) (symbol : String)
    (pos : Position) (reason : String) (now : ℚ)
    (h : mapLookup e.market_data symbol = none) :
    close_position e symbol pos reason now = e := by
  simp [close_position, h]

theorem close_position_capital (e : TradingEngine) (symbol : String)
    (pos : Position) (reason : String) (now : ℚ) :
    (close_position e symbol pos reason now).current_capital =
      e.current_capital := by
  cases h : mapLookup e.market_data symbol with
  | none => rw [close_position_of_none e symbol pos reason now h]
  | some price => rw [close_position_of_price e symbol pos reason now price h]

theorem close_position_market_data (e : TradingEngine) (symbol : String)
    (pos : Position) (reason : String) (now : ℚ) :
    (close_position e symbol pos reason now).market_data = e.market_data := by
  cases h : mapLookup e.market_data symbol with
  | none => rw [close_position_of_none e symbol pos reason now h]
  | some price => rw [close_position_of_price e symbol pos reason now price h]

theorem update_stats_counters (s : Stats) (pnl : ℚ) :
    (0 < pnl →
      (update_stats_on_close s pnl).winning_trades = s.winning_trades + 1 ∧
      (update_stats_on_close s pnl).losing_trades = s.losing_trades) ∧
    (¬ 0 < pnl →
      (update_stats_on_close s pnl).winning_trades = s.winning_trades ∧
      (update_stats_on_close s pnl).losing_trades = s.losing_trades + 1) := by
  constructor
  · intro h
    simp [update_stats_on_close, if_pos h]
  · intro h
    simp [update_stats_on_close, if_neg h]

/-! ### C4: realized P&L of a closed position -/

/-- C4: closing a position at market price `p` records realized P&L
`(p − entry) × qty` for a LONG (BUY) and `(entry − p) × qty` for a SHORT
(SELL); the status flip to CLOSED, the history append, and the win/loss
counter update (exactly one of the two counters grows) all happen in the one
close operation. -/
theorem close_position_realized_pnl (e : TradingEngine) (symbol : String)
    (pos : Position) (reason : String) (now price : ℚ)
    (h : mapLookup e.market_data symbol = some price) :
    ∃ q : Position,
      (close_position e symbol pos reason now).trade_history =
        e.trade_history ++ [q] ∧
      (pos.side = Side.BUY →
        q.realized_pnl = (price - pos.entry_price) * pos.quantity) ∧
      (pos.side = Side.SELL →
        q.realized_pnl = (pos.entry_price - price) * pos.quantity) ∧
      q.status = PosStatus.CLOSED ∧
      (close_position e symbol pos reason now).stats.winning_trades +
          (close_position e symbol pos reason now).stats.losing_trades =
        e.stats.winning_trades + e.stats.losing_trades + 1 := by
  refine ⟨closedRecord pos price reason now, ?_, ?_, ?_, ?_, ?_⟩
  · rw [close_position_of_price e symbol pos reason now price h]
  · intro hside
    simp [closedRecord, position_pnl, hside]
  · intro hside
    simp [closedRecord, position_pnl, hside]
  · rfl
  · rw [close_position_of_price e symbol pos reason now price h]
    dsimp only
    by_cases hp : 0 < position_pnl pos price
    · have := (update_stats_counters e.stats (position_pnl pos price)).1 hp
      omega
    · have := (update_stats_counters e.stats (position_pnl pos price)).2 hp
      omega

/-- C4 witness: closing the example LONG position (entry 100, qty 1) at
market price 110 realizes +10 and flips exactly one counter. -/
theorem close_position_realized_pnl_witness :
    ∃ q : Position,
      (close_position exampleEngine "BTCUSDT" examplePos "Take Profit" 1).trade_history =
        exampleEngine.trade_history ++ [q] ∧
      (examplePos.side = Side.BUY →
        q.realized_pnl = ((110 : ℚ) - examplePos.entry_price) * examplePos.quantity) ∧
      (examplePos.side = Side.SELL →
        q.realized_pnl = (examplePos.entry_price - 110) * examplePos.quantity) ∧
      q.status = PosStatus.CLOSED ∧
      (close_position exampleEngine "BTCUSDT" examplePos "Take Profit" 1).stats.winning_trades +
          (close_position exampleEngine "BTCUSDT" examplePos "Take Profit" 1).stats.losing_trades =
        exampleEngine.stats.winning_trades + exampleEngine.stats.losing_trades + 1 :=
  close_position_realized_pnl exampleEngine "BTCUSDT" examplePos "Take Profit" 1 110 rfl

/-! ### C10: break-even closes count as losses -/

theorem update_stats_win_rate_loss (s : Stats) (pnl : ℚ) (hp : ¬ 0 < pnl) :
    (update_stats_on_close s pnl).win_rate =
      (s.winning_trades : ℚ) /
        ((s.winning_trades + s.losing_trades + 1 : ℕ) : ℚ) * 100 := by
  have htot : 0 < s.winning_trades + (s.losing_trades + 1) := by omega
  simp only [update_stats_on_close, if_neg hp, if_pos htot]
  push_cast
  ring_nf

/-- C10: in `_close_position`, a trade closed with exactly zero realized P&L
is counted as a losing trade: `winning_trades` grows only on strictly
positive P&L, otherwise `losing_trades` grows and `|pnl|` is folded into
`avg_loss` (for a break-even close this dilutes `avg_loss` by `l/(l+1)`);
exactly one counter grows per close, and a non-winning close never raises —
and from a consistent win-rate state only lowers — the reported win rate. -/
theorem break_even_counts_as_loss (e : TradingEngine) (symbol : String)
    (pos : Position) (reason : String) (now price : ℚ)
    (h : mapLookup e.market_data symbol = some price)
    (hwr : e.stats.win_rate =
      if 0 < e.stats.winning_trades + e.stats.losing_trades then
        (e.stats.winning_trades : ℚ) /
          ((e.stats.winning_trades + e.stats.losing_trades : ℕ) : ℚ) * 100
      else 0) :
    (0 < position_pnl pos price →
      (close_position e symbol pos reason now).stats.winning_trades =
          e.stats.winning_trades + 1 ∧
      (close_position e symbol pos reason now).stats.losing_trades =
        e.stats.losing_trades) ∧
    (position_pnl pos price ≤ 0 →
      (close_position e symbol pos reason now).stats.winning_trades =
          e.stats.winning_trades ∧
      (close_position e symbol pos reason now).stats.losing_trades =
        e.stats.losing_trades + 1) ∧
    (position_pnl pos price = 0 →
      (close_position e symbol pos reason now).stats.avg_loss =
        e.stats.avg_loss * (e.stats.losing_trades : ℚ) /
          ((e.stats.losing_trades : ℚ) + 1)) ∧
    (position_pnl pos price ≤ 0 →
      (close_position e symbol pos reason now).stats.win_rate ≤
        e.stats.win_rate) := by
  rw [close_position_of_price e symbol pos reason now price h]
  dsimp only
  set pnl := position_pnl pos price with hpnl
  refine ⟨fun hp => ?_, fun hp => ?_, fun hp => ?_, fun hp => ?_⟩
  · exact (update_stats_counters e.stats pnl).1 hp
  · exact (update_stats_counters e.stats pnl).2 (not_lt.mpr hp)
  · simp only [update_stats_on_close, hp, lt_self_iff_false, if_false, abs_zero]
    ring_nf
  · rw [update_stats_win_rate_loss e.stats pnl (not_lt.mpr hp), hwr]
    by_cases htot : 0 < e.stats.winning_trades + e.stats.losing_trades
    · rw [if_pos htot]
      have hc : (0 : ℚ) < ((e.stats.winning_trades + e.stats.losing_trades : ℕ) : ℚ) := by
        exact_mod_cast htot
      have hle : ((e.stats.winning_trades + e.stats.losing_trades : ℕ) : ℚ) ≤
          ((e.stats.winning_trades + e.stats.losing_trades + 1 : ℕ) : ℚ) := by
        push_cast
        linarith
      have hw : (0 : ℚ) ≤ (e.stats.winning_trades : ℚ) := by positivity
      gcongr
    · rw [if_neg htot]
      have hw0 : e.stats.winning_trades = 0 := by omega
      simp [hw0]

/-- C10 witness: closing the example LONG (entry 100) at market price 100 is
a break-even trade; it increments `losing_trades`, leaves `winning_trades`
alone, dilutes `avg_loss`, and does not raise the win rate. -/
theorem break_even_counts_as_loss_witness :
    ((0 : ℚ) < position_pnl examplePos 100 →
      (close_position { exampleEngine with market_data := [("BTCUSDT", 100)] }
          "BTCUSDT" examplePos "Time Limit" 1).stats.winning_trades =
          exampleEngine.stats.winning_trades + 1 ∧
      (close_position { exampleEngine with market_data := [("BTCUSDT", 100)] }
          "BTCUSDT" examplePos "Time Limit" 1).stats.losing_trades =
        exampleEngine.stats.losing_trades) ∧
    (position_pnl examplePos 100 ≤ 0 →
      (close_position { exampleEngine with market_data := [("BTCUSDT", 100)] }
          "BTCUSDT" examplePos "Time Limit" 1).stats.winning_trades =
          exampleEngine.stats.winning_trades ∧
      (close_position { exampleEngine with market_data := [("BTCUSDT", 100)] }
          "BTCUSDT" examplePos "Time Limit" 1).stats.losing_trades =
        exampleEngine.stats.losing_trades + 1) ∧
    (position_pnl examplePos 100 = 0 →
      (close_position { exampleEngine with market_data := [("BTCUSDT", 100)] }
          "BTCUSDT" examplePos "Time Limit" 1).stats.avg_loss =
        exampleEngine.stats.avg_loss * (exampleEngine.stats.losing_trades : ℚ) /
          ((exampleEngine.stats.losing_trades : ℚ) + 1)) ∧
    (position_pnl examplePos 100 ≤ 0 →
      (close_position { exampleEngine with market_data := [("BTCUSDT", 100)] }
          "BTCUSDT" examplePos "Time Limit" 1).stats.win_rate ≤
        exampleEngine.stats.win_rate) :=
  break_even_counts_as_loss
    { exampleEngine with market_data := [("BTCUSDT", 100)] }
    "BTCUSDT" examplePos "Time Limit" 1 100 rfl (by norm_num [exampleEngine, exampleStats])

/-! ### C7: trailing-stop monotonicity -/

/-- One price tick as seen by the trailing-stop logic: `_manage_position`
stores the tick into `position['current_price']` and, when no exit fires,
calls `_update_trailing_stop`. -/
def trailTick (pos : Position) (price : ℚ) : Position :=
  update_trailing_stop { pos with current_price := price }

/-- A sequence of price ticks processed by the trailing-stop update. -/
def trailRun (pos : Position) (prices : List ℚ) : Position :=
  prices.foldl trailTick pos

theorem update_trailing_stop_side (pos : Position) :
    (update_trailing_stop pos).side = pos.side := by
  unfold update_trailing_stop
  split <;> dsimp only <;> split_ifs <;> rfl

theorem update_trailing_stop_mono_buy (pos : Position)
    (hside : pos.side = Side.BUY) :
    pos.stop_loss ≤ (update_trailing_stop pos).stop_loss := by
  simp only [update_trailing_stop, hside]
  split_ifs with h1 h2
  · exact le_of_lt h2
  · exact le_refl _
  · exact le_refl _

theorem update_trailing_stop_mono_sell (pos : Position)
    (hside : pos.side = Side.SELL) :
    (update_trailing_stop pos).stop_loss ≤ pos.stop_loss := by
  simp only [update_trailing_stop, hside]
  split_ifs with h1 h2
  · exact le_of_lt h2
  · exact le_refl _
  · exact le_refl _

theorem trailTick_side (pos : Position) (price : ℚ) :
    (trailTick pos price).side = pos.side :=
  update_trailing_stop_side _

theorem trailRun_side (pos : Position) (prices : List ℚ) :
    (trailRun pos prices).side = pos.side := by
  induction prices generalizing pos with
  | nil => rfl
  | cons p ps ih =>
    show (trailRun (trailTick pos p) ps).side = pos.side
    rw [ih, trailTick_side]

theorem trailRun_mono_buy (pos : Position) (prices : List ℚ)
    (hside : pos.side = Side.BUY) :
    pos.stop_loss ≤ (trailRun pos prices).stop_loss := by
  induction prices generalizing pos with
  | nil => exact le_refl _
  | cons p ps ih =>
    have h1 : pos.stop_loss ≤ (trailTick pos p).stop_loss :=
      update_trailing_stop_mono_buy _ hside
    have h2 : (trailTick pos p).side = Side.BUY := by
      rw [trailTick_side, hside]
    exact h1.trans (ih _ h2)

theorem trailRun_mono_sell (pos : Position) (prices : List ℚ)
    (hside : pos.side = Side.SELL) :
    (trailRun pos prices).stop_loss ≤ pos.stop_loss := by
  induction prices generalizing pos with
  | nil => exact le_refl _
  | cons p ps ih =>
    have h1 : (trailTick pos p).stop_loss ≤ pos.stop_loss :=
      update_trailing_stop_mono_sell _ hside
    have h2 : (trailTick pos p).side = Side.SELL := by
      rw [trailTick_side, hside]
    exact (ih _ h2).trans h1

/-- C7: over any sequence of price ticks processed by
`_update_trailing_stop`, a LONG (BUY) position's `stop_loss` never decreases
— both tick over tick (the next tick after any prefix only raises it) and
cumulatively — and a SHORT (SELL) position's `stop_loss` symmetrically never
increases. -/
theorem trailing_stop_monotone (pos : Position) (prices : List ℚ)
    (price : ℚ) :
    (pos.side = Side.BUY →
      (trailRun pos prices).stop_loss ≤
          (trailTick (trailRun pos prices) price).stop_loss ∧
      pos.stop_loss ≤ (trailRun pos prices).stop_loss) ∧
    (pos.side = Side.SELL →
      (trailTick (trailRun pos prices) price).stop_loss ≤
          (trailRun pos prices).stop_loss ∧
      (trailRun pos prices).stop_loss ≤ pos.stop_loss) := by
  constructor
  · intro hside
    have hs : (trailRun pos prices).side = Side.BUY := by
      rw [trailRun_side, hside]
    exact ⟨update_trailing_stop_mono_buy _ hs, trailRun_mono_buy pos prices hside⟩
  · intro hside
    have hs : (trailRun pos prices).side = Side.SELL := by
      rw [trailRun_side, hside]
    exact ⟨update_trailing_stop_mono_sell _ hs, trailRun_mono_sell pos prices hside⟩

/-- C7 witness: the example LONG position run through the favorable sequence
101, 103, 102 never has its stop loosened, and the next tick at 105 only
tightens it further. -/
theorem trailing_stop_monotone_witness :
    (trailRun examplePos [101, 103, 102]).stop_loss ≤
        (trailTick (trailRun examplePos [101, 103, 102]) 105).stop_loss ∧
    examplePos.stop_loss ≤ (trailRun examplePos [101, 103, 102]).stop_loss :=
  (trailing_stop_monotone examplePos [101, 103, 102] 105).1 rfl

/-! ### C2: one open position per symbol -/

theorem filter_key_eq_nil {α : Type} (m : List (String × α)) (s : String)
    (h : s ∉ m.map Prod.fst) : m.filter (fun kv => kv.1 == s) = [] := by
  induction m with
  | nil => rfl
  | cons kv rest ih =>
    simp only [List.map_cons, List.mem_cons] at h
    push_neg at h
    have h1 : (kv.1 == s) = false := by
      simp [Ne.symm h.1]
    simp [List.filter_cons, h1, ih h.2]

theorem length_filter_key_le_one {α : Type} (m : List (String × α))
    (hnd : (m.map Prod.fst).Nodup) (s : String) :
    (m.filter (fun kv => kv.1 == s)).length ≤ 1 := by
  induction m with
  | nil => simp
  | cons kv rest ih =>
    simp only [List.map_cons, List.nodup_cons] at hnd
    by_cases h : kv.1 = s
    · have hnot : s ∉ rest.map Prod.fst := h ▸ hnd.1
      simp [List.filter_cons, h, filter_key_eq_nil rest s hnot]
    · have h1 : (kv.1 == s) = false := by simp [h]
      simp only [List.filter_cons, h1]
      exact ih hnd.2

/-- C2: positions are keyed by symbol, so a duplicate-free key list carries
at most one (hence at most one OPEN) position per symbol; processing a
trading signal for a symbol that already has an entry in the positions map
leaves the engine unchanged (no new entry trade); an executed entry trade is
recorded under its own symbol key as an OPEN position; and trade execution
keeps the key list duplicate-free. -/
theorem one_open_position_per_symbol (e : TradingEngine) (symbol : String)
    (pred : Prediction) (side : Side) (quantity price : ℚ) (fill : Option ℚ)
    (now : ℚ) :
    ((e.positions.map Prod.fst).Nodup →
      ∀ s, (e.positions.filter (fun kv => kv.1 == s)).length ≤ 1) ∧
    ((mapLookup e.positions symbol).isSome →
      process_trading_signal e symbol pred fill now = e) ∧
    (∃ p, mapLookup
        (execute_trade e symbol side quantity price fill now).positions symbol =
          some p ∧
      p.symbol = symbol ∧ p.status = PosStatus.OPEN) ∧
    ((e.positions.map Prod.fst).Nodup →
      ((execute_trade e symbol side quantity price fill now).positions.map
          Prod.fst).Nodup) := by
  refine ⟨fun hnd s => length_filter_key_le_one e.positions hnd s, ?_, ?_, ?_⟩
  · intro hsome
    unfold process_trading_signal
    cases hm : mapLookup e.market_data symbol with
    | none => rfl
    | some current_price =>
      dsimp only
      by_cases hconf : pred.confidence < PREDICTION_CONFIDENCE_THRESHOLD
      · rw [if_pos hconf]
      · rw [if_neg hconf]
        split
        · rfl
        · simp [hsome]
  · exact ⟨_, mapLookup_mapInsert_self e.positions symbol _, rfl, rfl⟩
  · intro hnd
    exact keys_nodup_mapInsert e.positions symbol _ hnd

/-- C2 witness: `exampleEngine` holds BTCUSDT, so its duplicate-free
positions map has at most one entry per symbol, a fresh BTCUSDT signal does
not open a second position, and an ETHUSDT execution is recorded OPEN under
the ETHUSDT key with keys still duplicate-free. -/
theorem one_open_position_per_symbol_witness :
    (∀ s, (exampleEngine.positions.filter (fun kv => kv.1 == s)).length ≤ 1) ∧
    process_trading_signal exampleEngine "BTCUSDT"
        { confidence := 9 / 10, ensemble_prediction := 2 / 100, risk_score := 0 }
        none 1 = exampleEngine ∧
    (∃ p, mapLookup
        (execute_trade exampleEngine "ETHUSDT" Side.BUY 1 100 none 1).positions
          "ETHUSDT" = some p ∧
      p.symbol = "ETHUSDT" ∧ p.status = PosStatus.OPEN) ∧
    ((execute_trade exampleEngine "ETHUSDT" Side.BUY 1 100 none 1).positions.map
        Prod.fst).Nodup :=
  ⟨(one_open_position_per_symbol exampleEngine "BTCUSDT"
      { confidence := 9 / 10, ensemble_prediction := 2 / 100, risk_score := 0 }
      Side.BUY 1 100 none 1).1 (by decide),
    (one_open_position_per_symbol exampleEngine "BTCUSDT"
      { confidence := 9 / 10, ensemble_prediction := 2 / 100, risk_score := 0 }
      Side.BUY 1 100 none 1).2.1 (by decide),
    (one_open_position_per_symbol exampleEngine "ETHUSDT"
      { confidence := 9 / 10, ensemble_prediction := 2 / 100, risk_score := 0 }
      Side.BUY 1 100 none 1).2.2.1,
    (one_open_position_per_symbol exampleEngine "ETHUSDT"
      { confidence := 9 / 10, ensemble_prediction := 2 / 100, risk_score := 0 }
      Side.BUY 1 100 none 1).2.2.2 (by decide)⟩

/-! ### C1: capital conservation across open/close cycles -/

theorem runOp_capital (e : TradingEngine) (op : EngineOp) :
    (runOp e op).current_capital = e.current_capital := by
  cases op with
  | openPos symbol side quantity price fill now => rfl
  | closePos symbol reason now =>
    cases hl : mapLookup e.positions symbol with
    | none => simp [runOp, hl]
    | some pos =>
      simp only [runOp, hl]
      exact close_position_capital e symbol pos reason now

theorem runOp_pnl_invariant (e : TradingEngine) (op : EngineOp) :
    (runOp e op).total_pnl - historyPnl (runOp e op) =
      e.total_pnl - historyPnl e := by
  cases op with
  | openPos symbol side quantity price fill now => rfl
  | closePos symbol reason now =>
    cases hl : mapLookup e.positions symbol with
    | none => simp [runOp, hl]
    | some pos =>
      simp only [runOp, hl]
      cases hm : mapLookup e.market_data symbol with
      | none => rw [close_position_of_none e symbol pos reason now hm]
      | some price =>
        rw [close_position_of_price e symbol pos reason now price hm]
        simp only [historyPnl, List.map_append, List.sum_append, List.map_cons,
          List.map_nil, List.sum_cons, List.sum_nil]
        have : (closedRecord pos price reason now).realized_pnl =
            position_pnl pos price := rfl
        rw [this]
        ring

/-- C1 counterexample: with the example engine (capital 100000) holding the
LONG position entry 100 / qty 1 and the market at 110, one close cycle
realizes +10 into the trade history, but `current_capital` stays 100000 —
it does not equal start plus the realized P&L of the sequence. -/
theorem capital_conservation_cx :
    (runOps exampleEngine [EngineOp.closePos "BTCUSDT" "Take Profit" 1]).current_capital ≠
      exampleEngine.current_capital +
        (historyPnl (runOps exampleEngine [EngineOp.closePos "BTCUSDT" "Take Profit" 1]) -
          historyPnl exampleEngine) := by
  have h1 : runOps exampleEngine [EngineOp.closePos "BTCUSDT" "Take Profit" 1] =
      close_position exampleEngine "BTCUSDT" examplePos "Take Profit" 1 := by
    simp [runOps, runOp, exampleEngine, mapLookup]
  rw [h1, close_position_of_price exampleEngine "BTCUSDT" examplePos "Take Profit" 1 110 rfl]
  simp only [historyPnl, exampleEngine]
  norm_num [closedRecord, position_pnl, examplePos]

/-- C1 (amended): over any finite sequence of open/close cycles with no
external capital adjustment, `current_capital` is left exactly unchanged —
`_close_position` never credits realized P&L to capital; instead the sum of
the realized P&L of the positions closed during the sequence accrues to
`total_pnl` (equivalently, `total_pnl` minus the realized P&L already in the
history is conserved). -/
theorem capital_conservation (e : TradingEngine) (ops : List EngineOp) :
    (runOps e ops).current_capital = e.current_capital ∧
    (runOps e ops).total_pnl =
      e.total_pnl + (historyPnl (runOps e ops) - historyPnl e) := by
  induction ops generalizing e with
  | nil =>
    constructor
    · rfl
    · simp [runOps]
  | cons op ops ih =>
    have hstep1 := runOp_capital e op
    have hstep2 := runOp_pnl_invariant e op
    have hrun : runOps e (op :: ops) = runOps (runOp e op) ops := rfl
    constructor
    · rw [hrun, (ih (runOp e op)).1, hstep1]
    · have h2 := (ih (runOp e op)).2
      rw [hrun, h2]
      have : (runOp e op).total_pnl = e.total_pnl +
          (historyPnl (runOp e op) - historyPnl e) := by linarith
      rw [this]
      ring

/-! ### C3: exit-check precedence -/

/-- The in-place mutation `_manage_position` performs on the position dict
before its exit checks (current price and unrealized P&L refreshed from the
tick). -/
def tickedPos (pos : Position) (price : ℚ) : Position :=
  { pos with current_price := price, unrealized_pnl := position_pnl pos price }

theorem manage_position_of_price (e : TradingEngine) (symbol : String)
    (pos : Position) (now price : ℚ)
    (hmd : mapLookup e.market_data symbol = some price) :
    manage_position e symbol pos now =
      match exitCheck (tickedPos pos price) price now with
      | some reason =>
        close_position
          { e with positions := mapInsert e.positions symbol (tickedPos pos price) }
          symbol (tickedPos pos price) reason now
      | none =>
        { e with
          positions :=
            mapInsert e.positions symbol (update_trailing_stop (tickedPos pos price)) } := by
  unfold manage_position tickedPos
  rw [hmd]

theorem exitCheck_stop_first (pos : Position) (price now : ℚ)
    (h : (pos.side = Side.BUY ∧ price ≤ pos.stop_loss ∧ pos.take_profit ≤ price) ∨
      (pos.side = Side.SELL ∧ pos.stop_loss ≤ price ∧ price ≤ pos.take_profit)) :
    exitCheck pos price now = some "Stop Loss" := by
  unfold exitCheck
  rcases h with ⟨hs, h1, _⟩ | ⟨hs, h1, _⟩
  · rw [if_pos (Or.inl ⟨hs, h1⟩)]
  · rw [if_pos (Or.inr ⟨hs, h1⟩)]

/-- A position both of whose brackets are breached on one tick: a LONG whose
`stop_loss` and `take_profit` have collapsed onto the entry price. -/
def bothBreachedPos : Position :=
  { examplePos with stop_loss := 100, take_profit := 100 }

/-- An engine holding `bothBreachedPos` with the market tick at 100, so the
tick breaches the stop loss and the take profit simultaneously. -/
def bothBreachedEngine : TradingEngine :=
  { exampleEngine with
    positions := [("BTCUSDT", bothBreachedPos)]
    market_data := [("BTCUSDT", 100)] }

/-- C3 counterexample: on a tick that simultaneously breaches stop loss and
take profit, `_manage_position` does close the position by the stop-loss
branch, but the recorded `close_reason` is the literal `"Stop Loss"`, not
the snake_case `"stop_loss"` the claim requires. -/
theorem exit_precedence_cx :
    (bothBreachedPos.side = Side.BUY ∧
      (100 : ℚ) ≤ bothBreachedPos.stop_loss ∧ bothBreachedPos.take_profit ≤ 100) ∧
    (manage_position bothBreachedEngine "BTCUSDT" bothBreachedPos 0).trade_history.map
        Position.close_reason = ["Stop Loss"] ∧
    ("Stop Loss" : String) ≠ "stop_loss" := by
  refine ⟨by decide, ?_, by decide⟩
  decide

/-- C3 (amended): the exit conditions of `_manage_position` are evaluated in
the fixed order stop-loss, take-profit, 24-hour holding limit, 10% excursion
breaker; on any tick breaching both bracket levels the position is closed by
the first (stop-loss) branch, so its recorded `close_reason` is the string
`"Stop Loss"` (the source's literal; the claim's `"stop_loss"` spelling does
not occur) and it leaves the open-positions map. -/
theorem exit_precedence_stop_loss (e : TradingEngine) (symbol : String)
    (pos : Position) (now price : ℚ)
    (hmd : mapLookup e.market_data symbol = some price)
    (hnd : (e.positions.map Prod.fst).Nodup)
    (hboth : (pos.side = Side.BUY ∧ price ≤ pos.stop_loss ∧ pos.take_profit ≤ price) ∨
      (pos.side = Side.SELL ∧ pos.stop_loss ≤ price ∧ price ≤ pos.take_profit)) :
    ∃ q : Position,
      (manage_position e symbol pos now).trade_history = e.trade_history ++ [q] ∧
      q.close_reason = "Stop Loss" ∧
      q.status = PosStatus.CLOSED ∧
      mapLookup (manage_position e symbol pos now).positions symbol = none := by
  have hexit : exitCheck (tickedPos pos price) price now = some "Stop Loss" :=
    exitCheck_stop_first (tickedPos pos price) price now hboth
  rw [manage_position_of_price e symbol pos now price hmd, hexit]
  dsimp only
  rw [close_position_of_price
    { e with positions := mapInsert e.positions symbol (tickedPos pos price) }
    symbol (tickedPos pos price) "Stop Loss" now price hmd]
  refine ⟨closedRecord (tickedPos pos price) price "Stop Loss" now, rfl, rfl, rfl, ?_⟩
  exact mapLookup_mapErase_self _ symbol
    (keys_nodup_mapInsert e.positions symbol _ hnd)

/-- C3 witness: concrete instance of the amended precedence theorem on
`bothBreachedEngine`. -/
theorem exit_precedence_stop_loss_witness :
    ∃ q : Position,
      (manage_position bothBreachedEngine "BTCUSDT" bothBreachedPos 0).trade_history =
        bothBreachedEngine.trade_history ++ [q] ∧
      q.close_reason = "Stop Loss" ∧
      q.status = PosStatus.CLOSED ∧
      mapLookup (manage_position bothBreachedEngine "BTCUSDT" bothBreachedPos 0).positions
        "BTCUSDT" = none :=
  exit_precedence_stop_loss bothBreachedEngine "BTCUSDT" bothBreachedPos 0 100
    rfl (by decide) (Or.inl (by refine ⟨rfl, ?_, ?_⟩ <;> norm_num [bothBreachedPos, examplePos]))

/-! ### C5: drawdown breach forces emergency stop -/

theorem foldl_close_spec (reason : String) (now : ℚ) (ks : List String) :
    ∀ e : TradingEngine,
      e.positions.map Prod.fst = ks →
      ks.Nodup →
      (∀ k ∈ ks, (mapLookup e.market_data k).isSome) →
      (ks.foldl (close_step reason now) e).positions = [] ∧
      (ks.foldl (close_step reason now) e).market_data = e.market_data ∧
      (ks.foldl (close_step reason now) e).current_capital = e.current_capital ∧
      (ks.foldl (close_step reason now) e).is_running = e.is_running ∧
      ∀ q ∈ (ks.foldl (close_step reason now) e).trade_history,
        q ∈ e.trade_history ∨ q.close_reason = reason := by
  induction ks with
  | nil =>
    intro e hmap hnd hmd
    refine ⟨?_, rfl, rfl, rfl, fun q hq => Or.inl hq⟩
    exact List.map_eq_nil_iff.mp hmap
  | cons k rest ih =>
    intro e hmap hnd hmd
    cases hpos : e.positions with
    | nil => rw [hpos] at hmap; simp at hmap
    | cons kv ps =>
      rw [hpos] at hmap
      simp only [List.map_cons, List.cons.injEq] at hmap
      obtain ⟨hk, hrest⟩ := hmap
      have hlk : mapLookup e.positions k = some kv.2 := by
        rw [hpos]
        simp [mapLookup, hk]
      obtain ⟨price, hprice⟩ :=
        Option.isSome_iff_exists.mp (hmd k (List.mem_cons_self k rest))
      have hstep : close_step reason now e k = close_position e k kv.2 reason now := by
        simp [close_step, hlk]
      have hclose := close_position_of_price e k kv.2 reason now price hprice
      have h2pos : (close_position e k kv.2 reason now).positions = ps := by
        rw [hclose]
        dsimp only
        rw [hpos]
        simp [mapErase, hk]
      have h2md : (close_position e k kv.2 reason now).market_data = e.market_data := by
        rw [hclose]
      have h2cap : (close_position e k kv.2 reason now).current_capital =
          e.current_capital := by
        rw [hclose]
      have h2run : (close_position e k kv.2 reason now).is_running = e.is_running := by
        rw [hclose]
      have h2hist : (close_position e k kv.2 reason now).trade_history =
          e.trade_history ++ [closedRecord kv.2 price reason now] := by
        rw [hclose]
      have hmap2 : (close_position e k kv.2 reason now).positions.map Prod.fst = rest := by
        rw [h2pos]
        exact hrest
      have hnd2 : rest.Nodup := (List.nodup_cons.mp hnd).2
      have hmd2 : ∀ k2 ∈ rest,
          (mapLookup (close_position e k kv.2 reason now).market_data k2).isSome := by
        intro k2 hk2
        rw [h2md]
        exact hmd k2 (List.mem_cons_of_mem _ hk2)
      obtain ⟨c1, c2, c3, c4, c5⟩ := ih (close_position e k kv.2 reason now) hmap2 hnd2 hmd2
      have hfold : (k :: rest).foldl (close_step reason now) e =
          rest.foldl (close_step reason now) (close_position e k kv.2 reason now) := by
        simp [List.foldl_cons, hstep]
      refine ⟨by rw [hfold]; exact c1, by rw [hfold, c2, h2md],
        by rw [hfold, c3, h2cap], by rw [hfold, c4, h2run], ?_⟩
      intro q hq
      rw [hfold] at hq
      rcases c5 q hq with hin | hr
      · rw [h2hist] at hin
        rcases List.mem_append.mp hin with hin1 | hin1
        · exact Or.inl hin1
        · right
          have : q = closedRecord kv.2 price reason now := by simpa using hin1
          rw [this]
          rfl
      · exact Or.inr hr

/-- An engine whose computed max-drawdown risk metric (16%) exceeds the 15%
threshold. -/
def drawdownEngine : TradingEngine :=
  { exampleEngine with risk_max_drawdown := 16 / 100 }

/-- An engine whose `max_drawdown_reached` book-keeping field records a 16%
drawdown. -/
def reachedDrawdownEngine : TradingEngine :=
  { exampleEngine with max_drawdown_reached := 16 / 100 }

/-- C5 counterexample: with the max-drawdown metric above the threshold,
`_enforce_risk_limits` does force every open position to CLOSED — but via
`_emergency_stop("Maximum drawdown exceeded")`, so the recorded
`close_reason` is `"Maximum drawdown exceeded"`, not `"risk_management"` as
the claim requires. -/
theorem emergency_reason_cx :
    MAX_DRAWDOWN_THRESHOLD < drawdownEngine.risk_max_drawdown ∧
    (enforce_risk_limits drawdownEngine 2).positions = [] ∧
    (enforce_risk_limits drawdownEngine 2).trade_history.map Position.close_reason =
      ["Maximum drawdown exceeded"] ∧
    ("Maximum drawdown exceeded" : String) ≠ "risk_management" := by
  have hif : MAX_DRAWDOWN_THRESHOLD < drawdownEngine.risk_max_drawdown := by
    norm_num [drawdownEngine, exampleEngine, MAX_DRAWDOWN_THRESHOLD]
  have h1 : enforce_risk_limits drawdownEngine 2 =
      { close_all_positions drawdownEngine "Maximum drawdown exceeded" 2 with
        is_running := false } := by
    unfold enforce_risk_limits
    rw [if_pos hif]
    rfl
  have h2 : close_all_positions drawdownEngine "Maximum drawdown exceeded" 2 =
      close_position drawdownEngine "BTCUSDT" examplePos "Maximum drawdown exceeded" 2 :=
    rfl
  have h3 := close_position_of_price drawdownEngine "BTCUSDT" examplePos
    "Maximum drawdown exceeded" 2 110 rfl
  refine ⟨hif, ?_, ?_, by decide⟩
  · rw [h1]
    show (close_all_positions drawdownEngine "Maximum drawdown exceeded" 2).positions = []
    rw [h2, h3]
    rfl
  · rw [h1]
    show ((close_all_positions drawdownEngine "Maximum drawdown exceeded" 2).trade_history.map
      Position.close_reason) = ["Maximum drawdown exceeded"]
    rw [h2, h3]
    rfl

/-- C5 (amended): when the computed max-drawdown metric strictly exceeds
`MAX_DRAWDOWN_THRESHOLD`, `_enforce_risk_limits` runs the emergency stop:
every open position (each having market data) is closed, with any new
history entry carrying close_reason `"Maximum drawdown exceeded"` (not
`"risk_management"`), and `is_running` is forced to false so the trading
loops stop until an explicit restart; independently, `_should_trade` is
false whenever `max_drawdown_reached` has reached the threshold. -/
theorem emergency_drawdown_stop (e : TradingEngine) (now : ℚ)
    (hdd : MAX_DRAWDOWN_THRESHOLD < e.risk_max_drawdown)
    (hnd : (e.positions.map Prod.fst).Nodup)
    (hmd : ∀ k ∈ e.positions.map Prod.fst, (mapLookup e.market_data k).isSome) :
    (enforce_risk_limits e now).positions = [] ∧
    (enforce_risk_limits e now).is_running = false ∧
    (∀ q ∈ (enforce_risk_limits e now).trade_history,
      q ∈ e.trade_history ∨ q.close_reason = "Maximum drawdown exceeded") ∧
    (∀ e2 : TradingEngine, MAX_DRAWDOWN_THRESHOLD ≤ e2.max_drawdown_reached →
      should_trade e2 = false) := by
  have henf : enforce_risk_limits e now =
      emergency_stop e "Maximum drawdown exceeded" now := by
    simp [enforce_risk_limits, hdd]
  obtain ⟨c1, c2, c3, c4, c5⟩ :=
    foldl_close_spec "Maximum drawdown exceeded" now (e.positions.map Prod.fst) e
      rfl hnd hmd
  refine ⟨?_, ?_, ?_, ?_⟩
  · rw [henf]
    simp only [emergency_stop, close_all_positions]
    exact c1
  · rw [henf]
    simp only [emergency_stop, close_all_positions]
  · rw [henf]
    simp only [emergency_stop, close_all_positions]
    exact c5
  · intro e2 h2
    unfold should_trade
    by_cases hc1 : MAX_CONCURRENT_POSITIONS ≤ e2.positions.length
    · rw [if_pos hc1]
    · rw [if_neg hc1]
      by_cases hc2 : e2.current_capital ≤ 1000
      · rw [if_pos hc2]
      · rw [if_neg hc2, if_pos h2]

/-- C5 witness: concrete instance on `drawdownEngine` (16% metric vs 15%
threshold, one priced open position), plus the should-trade gate at a
concrete engine with 16% reached drawdown. -/
theorem emergency_drawdown_stop_witness :
    (enforce_risk_limits drawdownEngine 2).positions = [] ∧
    (enforce_risk_limits drawdownEngine 2).is_running = false ∧
    (∀ q ∈ (enforce_risk_limits drawdownEngine 2).trade_history,
      q ∈ drawdownEngine.trade_history ∨
        q.close_reason = "Maximum drawdown exceeded") ∧
    should_trade reachedDrawdownEngine = false :=
  ⟨(emergency_drawdown_stop drawdownEngine 2
      (by norm_num [drawdownEngine, exampleEngine, MAX_DRAWDOWN_THRESHOLD])
      (by decide) (by decide)).1,
    (emergency_drawdown_stop drawdownEngine 2
      (by norm_num [drawdownEngine, exampleEngine, MAX_DRAWDOWN_THRESHOLD])
      (by decide) (by decide)).2.1,
    (emergency_drawdown_stop drawdownEngine 2
      (by norm_num [drawdownEngine, exampleEngine, MAX_DRAWDOWN_THRESHOLD])
      (by decide) (by decide)).2.2.1,
    (emergency_drawdown_stop drawdownEngine 2
      (by norm_num [drawdownEngine, exampleEngine, MAX_DRAWDOWN_THRESHOLD])
      (by decide) (by decide)).2.2.2 reachedDrawdownEngine
      (by norm_num [reachedDrawdownEngine, exampleEngine, MAX_DRAWDOWN_THRESHOLD])⟩

/-! ### C6: entry price and fill confirmation -/

/-- C6 counterexample: the (testnet) example engine executes a trade for
which the exchange reported no fill at all (`fill = none`, a test order),
yet a position record is created immediately and its `entry_price` is the
pre-trade quoted price 100 — position creation does not wait for a confirmed
fill and does not use a fill price. -/
theorem fill_price_cx :
    exampleEngine.is_live_trading = false ∧
    (mapLookup (execute_trade exampleEngine "ETHUSDT" Side.BUY 1 100 none 0).positions
        "ETHUSDT").isSome = true ∧
    (mapLookup (execute_trade exampleEngine "ETHUSDT" Side.BUY 1 100 none 0).positions
        "ETHUSDT").map Position.entry_price = some 100 := by
  decide

/-- C6 (amended): `_execute_trade` records the position immediately after
`place_market_order` returns, with no separate fill-confirmation event.  In
live mode the `entry_price` is the first reported fill price when the order
response carries one, falling back to the pre-trade quote when it does not;
in testnet/paper mode the order is a test order and `entry_price` is always
the pre-trade quoted price. -/
theorem entry_price_semantics (e : TradingEngine) (symbol : String)
    (side : Side) (quantity price f : ℚ) (fill : Option ℚ) (now : ℚ) :
    (e.is_live_trading = true →
      ∃ p, mapLookup
          (execute_trade e symbol side quantity price (some f) now).positions symbol =
        some p ∧ p.entry_price = f ∧ p.status = PosStatus.OPEN) ∧
    (e.is_live_trading = true →
      ∃ p, mapLookup
          (execute_trade e symbol side quantity price none now).positions symbol =
        some p ∧ p.entry_price = price ∧ p.status = PosStatus.OPEN) ∧
    (e.is_live_trading = false →
      ∃ p, mapLookup
          (execute_trade e symbol side quantity price fill now).positions symbol =
        some p ∧ p.entry_price = price ∧ p.status = PosStatus.OPEN) := by
  refine ⟨fun hlive => ?_, fun hlive => ?_, fun hlive => ?_⟩
  · refine ⟨_, mapLookup_mapInsert_self e.positions symbol _, ?_, rfl⟩
    simp [execute_trade, hlive]
  · refine ⟨_, mapLookup_mapInsert_self e.positions symbol _, ?_, rfl⟩
    simp [execute_trade, hlive]
  · refine ⟨_, mapLookup_mapInsert_self e.positions symbol _, ?_, rfl⟩
    simp [execute_trade, hlive]

/-- C6 witness: a live-mode engine executing with a reported fill at 105
records entry price 105; the testnet example engine with a quoted price 100
records entry price 100. -/
theorem entry_price_semantics_witness :
    (∃ p, mapLookup
        (execute_trade { exampleEngine with is_live_trading := true } "ETHUSDT"
          Side.BUY 1 100 (some 105) 0).positions "ETHUSDT" =
      some p ∧ p.entry_price = 105 ∧ p.status = PosStatus.OPEN) ∧
    (∃ p, mapLookup
        (execute_trade exampleEngine "ETHUSDT" Side.BUY 1 100 none 0).positions
          "ETHUSDT" =
      some p ∧ p.entry_price = 100 ∧ p.status = PosStatus.OPEN) :=
  ⟨(entry_price_semantics { exampleEngine with is_live_trading := true } "ETHUSDT"
      Side.BUY 1 100 105 none 0).1 rfl,
    (entry_price_semantics exampleEngine "ETHUSDT" Side.BUY 1 100 105 none 0).2.2 rfl⟩

end QuantumTradebot
